import Mathlib

/-!
Verification of the core computations of `ralph_assets`:

* the rack slot resolver `get_empty_positions`
  (src/ralph_assets/rest/asset_info_per_rack.py, lines 44-54), and
* the deprecation evaluator `Asset.is_deprecated`
  (src/ralph_assets/models_assets.py, lines 275-287).

Both are shallowly embedded below, translated line by line from the
Python source.  Python machine-free integers are modelled by `Int`,
Python `date`/`datetime` values by the `Date` structure, and the
fallibility of the slot-resolver loop (a `NameError` when `height`
is used before being bound) by an `Option` result.
-/

/-- A calendar date, modelling Python `datetime.date` (and, where the
source converts, the date part of a `datetime.datetime`). -/
structure Date where
  year : Int
  month : Int
  day : Int
deriving DecidableEq, Repr

/-- Gregorian leap-year rule, as implemented by Python's `calendar`
module and used by `dateutil.relativedelta` when clamping days. -/
def isLeap (y : Int) : Bool :=
  (y % 4 == 0 && y % 100 != 0) || (y % 400 == 0)

/-- Number of days of month `m` of year `y` (months counted 1..12). -/
def daysInMonth (y m : Int) : Int :=
  if m = 2 then (if isLeap y then 29 else 28)
  else if m = 4 ∨ m = 6 ∨ m = 9 ∨ m = 11 then 30
  else 31

/-- `d + relativedelta(months := m)`: calendar-month arithmetic with
rollover of the month into the year (Python floor division and
modulus) and clamping of the day to the length of the target month,
e.g. Jan 31 + 1 month = Feb 28/29. -/
def addMonths (d : Date) (m : Int) : Date :=
  let t := d.month - 1 + m
  let y := d.year + t.fdiv 12
  let mo := t.emod 12 + 1
  ⟨y, mo, min d.day (daysInMonth y mo)⟩

/-- Strict comparison of dates, as Python compares `date` values:
lexicographically by year, month, day. -/
def dateLtP (a b : Date) : Prop :=
  a.year < b.year ∨
    (a.year = b.year ∧
      (a.month < b.month ∨ (a.month = b.month ∧ a.day < b.day)))

instance (a b : Date) : Decidable (dateLtP a b) := by
  unfold dateLtP; infer_instance

/-- The value held by the `invoice_date` field of an asset record.
The source tolerates two representations: a `basestring` holding a
validated `%Y-%m-%d` date (the spec states malformed strings are the
caller's concern, so the string case carries the date it parses to),
or an already-parsed date value. -/
inductive DateField
  | fromString (d : Date)
  | fromDate (d : Date)
deriving DecidableEq, Repr

/-- The date denoted by an `invoice_date` field value. -/
def DateField.dateOf : DateField → Date
  | .fromString d => d
  | .fromDate d => d

/-- The two fields of the `Asset` model read (and, for
`invoice_date`, possibly written) by `is_deprecated`.  Both are
nullable columns, hence `Option`. -/
structure AssetRec where
  support_period : Option Int
  invoice_date : Option DateField
deriving DecidableEq, Repr

/-- `Asset.is_deprecated` (models_assets.py, lines 275-287).  The
method reads the ambient clock (`datetime.datetime.today().date()`);
that clock reading is the explicit `today` parameter of the
embedding.  The method can reassign `self.invoice_date`, so the
embedding returns the resulting record alongside the boolean.

Line by line: `if not self.support_period or not self.invoice_date:
return False` (Python falsiness of `None` and `0`); then the string
representation is parsed and written back to `self.invoice_date`;
then `deprecation_date = self.invoice_date +
relativedelta(months=self.support_period)`; finally
`return deprecation_date < datetime.datetime.today().date()`. -/
def is_deprecated (self : AssetRec) (today : Date) : Bool × AssetRec :=
  match self.support_period, self.invoice_date with
  | some m, some f =>
      if m = 0 then (false, self)
      else
        let self2 : AssetRec :=
          match f with
          | .fromString d => { self with invoice_date := some (.fromDate d) }
          | .fromDate _ => self
        let deprecation_date := addMonths f.dateOf m
        (decide (dateLtP deprecation_date today), self2)
  | _, _ => (false, self)

/-! ## The rack slot resolver -/

/-- `TYPE_ACCESSORY` (asset_info_per_rack.py line 20). -/
def TYPE_ACCESSORY : String := "accessory"

/-- `TYPE_ASSET` (asset_info_per_rack.py line 21). -/
def TYPE_ASSET : String := "asset"

/-- One entry of the `devices` list handed to `get_empty_positions`:
a dict carrying at least a `_type` tag, a `position` and (for assets)
a `height`.  Accessory dicts built by `get_data_by_side` carry no
height key; the loop never reads it for them, so the field value is
irrelevant there. -/
structure RackItem where
  _type : String
  position : Int
  height : Int
deriving DecidableEq, Repr

/-- Python `range(position, position + height)` as a list of
integers: empty when `height ≤ 0`. -/
def rangeList (position height : Int) : List Int :=
  (List.range height.toNat).map (fun i : Nat => position + (i : Int))

/-- The loop body of `get_empty_positions`, made explicit.  The local
variable `height` is *not* initialised before the loop and is *not*
reset between iterations, so it is threaded as `Option Int` state:
`none` models "not yet bound".  An item whose `_type` is neither
`'accessory'` nor `'asset'` leaves `height` unchanged; if `height` is
still unbound when `positions.extend(range(position, position +
height))` runs, Python raises `NameError`, modelled by `none`. -/
def emptyPositionsLoop : Option Int → List RackItem → List Int → Option (List Int)
  | _, [], positions => some positions
  | height, item :: rest, positions =>
      let height := if item._type = TYPE_ACCESSORY then some 1 else height
      let height := if item._type = TYPE_ASSET then some item.height else height
      match height with
      | none => none
      | some h => emptyPositionsLoop (some h) rest (positions ++ rangeList item.position h)

/-- `get_empty_positions(max_height, devices)`
(asset_info_per_rack.py, lines 44-54):
`set(xrange(1, max_height + 1)) - set(positions)` after the loop has
accumulated `positions`.  `none` models the `NameError` raised when
the first item's `_type` is neither `'accessory'` nor `'asset'`. -/
def get_empty_positions (max_height : Int) (devices : List RackItem) :
    Option (Finset Int) :=
  (emptyPositionsLoop none devices []).map
    (fun positions => Finset.Icc 1 max_height \ positions.toFinset)

/-! ## Spec-side vocabulary for the slot resolver

The definitions below transcribe the specification's words, to be
compared with the embedded source function: an item of kind Accessory
has height fixed at `1`, an item of kind Asset has its own height,
and its occupied range is `[position, position + height - 1]`. -/

/-- An item whose `_type` tag is one of the two kinds the
specification's data model admits. -/
def validType (it : RackItem) : Prop :=
  it._type = TYPE_ASSET ∨ it._type = TYPE_ACCESSORY

instance (it : RackItem) : Decidable (validType it) := by
  unfold validType; infer_instance

/-- The height the specification assigns to an item: fixed at `1` for
an Accessory, the item's own height for an Asset. -/
def effHeight (it : RackItem) : Int :=
  if it._type = TYPE_ACCESSORY then 1 else it.height

/-- The occupied range `[position, position + height - 1]` of an
item, per the specification (empty when the height is `≤ 0`). -/
def occupiedRange (it : RackItem) : Finset Int :=
  Finset.Icc it.position (it.position + effHeight it - 1)

/-- The union of the occupied ranges of all items of a list, per the
specification ("overlapping items contribute their union, not their
sum"). -/
def occupiedUnion : List RackItem → Finset Int
  | [] => ∅
  | it :: rest => occupiedRange it ∪ occupiedUnion rest

example : addMonths ⟨2020, 1, 31⟩ 1 = ⟨2020, 2, 29⟩ := by decide
example : addMonths ⟨2021, 1, 31⟩ 1 = ⟨2021, 2, 28⟩ := by decide
example : addMonths ⟨2020, 11, 15⟩ 3 = ⟨2021, 2, 15⟩ := by decide
example : addMonths ⟨2020, 1, 1⟩ 12 = ⟨2021, 1, 1⟩ := by decide
example :
    (is_deprecated ⟨some 12, some (.fromDate ⟨2020, 1, 1⟩)⟩ ⟨2021, 1, 2⟩).1 = true := by
  decide
example :
    (is_deprecated ⟨some 12, some (.fromDate ⟨2020, 1, 1⟩)⟩ ⟨2021, 1, 1⟩).1 = false := by
  decide
example :
    get_empty_positions 4
      [⟨TYPE_ACCESSORY, 2, 0⟩, ⟨TYPE_ASSET, 3, 1⟩] =
      some ({1, 4} : Finset Int) := by
  decide

lemma mem_occupiedUnion (x : Int) :
    ∀ devices : List RackItem,
      x ∈ occupiedUnion devices ↔ ∃ it ∈ devices, x ∈ occupiedRange it
  | [] => by simp [occupiedUnion]
  | it :: rest => by
      simp [occupiedUnion, Finset.mem_union, mem_occupiedUnion x rest]

lemma mem_rangeList (p h x : Int) :
    x ∈ rangeList p h ↔ p ≤ x ∧ x < p + h := by
  unfold rangeList
  rw [List.mem_map]
  constructor
  · rintro ⟨i, hi, rfl⟩
    rw [List.mem_range] at hi
    omega
  · rintro ⟨h1, h2⟩
    exact ⟨(x - p).toNat, List.mem_range.mpr (by omega), by omega⟩

lemma rangeList_toFinset (p h : Int) :
    (rangeList p h).toFinset = Finset.Icc p (p + h - 1) := by
  ext x
  rw [List.mem_toFinset, mem_rangeList, Finset.mem_Icc]
  omega

lemma TYPE_ASSET_ne_TYPE_ACCESSORY : TYPE_ASSET ≠ TYPE_ACCESSORY := by decide

/-- On a list all of whose items are of a valid kind, the loop never
fails, its carried `height` state is irrelevant (each iteration
rebinds it), and each item contributes the range determined by its
own effective height. -/
lemma emptyPositionsLoop_all_valid :
    ∀ (devices : List RackItem) (h0 : Option Int) (acc : List Int),
      (∀ it ∈ devices, validType it) →
      emptyPositionsLoop h0 devices acc =
        some (acc ++ devices.flatMap (fun it => rangeList it.position (effHeight it)))
  | [], h0, acc, _ => by simp [emptyPositionsLoop]
  | it :: rest, h0, acc, hval => by
      have hrest : ∀ x ∈ rest, validType x :=
        fun x hx => hval x (List.mem_cons_of_mem it hx)
      rcases hval it (List.mem_cons_self it rest) with h | h
      · have hne : it._type ≠ TYPE_ACCESSORY := by
          rw [h]; exact TYPE_ASSET_ne_TYPE_ACCESSORY
        simp only [emptyPositionsLoop, if_neg hne, if_pos h]
        rw [emptyPositionsLoop_all_valid rest _ _ hrest]
        simp [effHeight, if_neg hne]
      · have hne : it._type ≠ TYPE_ASSET := by
          rw [h]; exact fun hc => TYPE_ASSET_ne_TYPE_ACCESSORY hc.symm
        simp only [emptyPositionsLoop, if_neg hne, if_pos h]
        rw [emptyPositionsLoop_all_valid rest _ _ hrest]
        simp [effHeight, if_pos h]

lemma flatMap_ranges_toFinset :
    ∀ devices : List RackItem,
      (devices.flatMap (fun it => rangeList it.position (effHeight it))).toFinset =
        occupiedUnion devices
  | [] => by simp [occupiedUnion]
  | it :: rest => by
      simp only [List.flatMap_cons, List.toFinset_append, occupiedUnion,
        flatMap_ranges_toFinset rest, rangeList_toFinset, occupiedRange]

/-- Characterization of the source function on well-kinded input:
it returns (without failing) exactly the set difference of the full
range and the union of the items' occupied ranges. -/
lemma get_empty_positions_char (mh : Int) (devices : List RackItem)
    (hval : ∀ it ∈ devices, validType it) :
    get_empty_positions mh devices =
      some (Finset.Icc 1 mh \ occupiedUnion devices) := by
  unfold get_empty_positions
  rw [emptyPositionsLoop_all_valid devices none [] hval]
  simp [flatMap_ranges_toFinset]

/-- One unfolding step of the loop, with the two sequential `if`
statements of the source written as one nested conditional. -/
lemma emptyPositionsLoop_cons (s : Option Int) (it : RackItem)
    (rest : List RackItem) (acc : List Int) :
    emptyPositionsLoop s (it :: rest) acc =
      match (if it._type = TYPE_ASSET then some it.height
             else if it._type = TYPE_ACCESSORY then some 1 else s) with
      | none => none
      | some h => emptyPositionsLoop (some h) rest (acc ++ rangeList it.position h) :=
  rfl

/-- Two loop tails that agree from every carried-height state and
accumulator keep agreeing under any common prefix of items. -/
lemma emptyPositionsLoop_congr_suffix (l1 l2 : List RackItem)
    (h : ∀ (s : Option Int) (acc : List Int),
      emptyPositionsLoop s l1 acc = emptyPositionsLoop s l2 acc) :
    ∀ (pre : List RackItem) (s : Option Int) (acc : List Int),
      emptyPositionsLoop s (pre ++ l1) acc = emptyPositionsLoop s (pre ++ l2) acc
  | [], s, acc => h s acc
  | it :: pre, s, acc => by
      rw [List.cons_append, List.cons_append, emptyPositionsLoop_cons,
        emptyPositionsLoop_cons]
      cases hh : (if it._type = TYPE_ASSET then some it.height
             else if it._type = TYPE_ACCESSORY then some 1 else s) with
      | none => rfl
      | some hv => exact emptyPositionsLoop_congr_suffix l1 l2 h pre (some hv) _

/-- An item of unrecognized kind right after a well-kinded item
behaves exactly like an Asset whose height is the preceding item's
effective height: the stale `height` variable is silently reused. -/
lemma loop_other_reuses_height (prev other : RackItem) (rest : List RackItem)
    (hprev : validType prev)
    (h1 : other._type ≠ TYPE_ASSET) (h2 : other._type ≠ TYPE_ACCESSORY)
    (s : Option Int) (acc : List Int) :
    emptyPositionsLoop s (prev :: other :: rest) acc =
      emptyPositionsLoop s
        (prev :: { other with _type := TYPE_ASSET, height := effHeight prev } :: rest)
        acc := by
  rw [emptyPositionsLoop_cons, emptyPositionsLoop_cons]
  have heff : (if prev._type = TYPE_ASSET then some prev.height
      else if prev._type = TYPE_ACCESSORY then some 1 else s) = some (effHeight prev) := by
    rcases hprev with h | h
    · have hne : prev._type ≠ TYPE_ACCESSORY := by
        rw [h]; exact TYPE_ASSET_ne_TYPE_ACCESSORY
      rw [if_pos h, effHeight, if_neg hne]
    · have hne : prev._type ≠ TYPE_ASSET := by
        rw [h]; exact fun hc => TYPE_ASSET_ne_TYPE_ACCESSORY hc.symm
      rw [if_neg hne, if_pos h, effHeight, if_pos h]
  rw [heff]
  show emptyPositionsLoop (some (effHeight prev)) (other :: rest) _ =
    emptyPositionsLoop (some (effHeight prev))
      ({ other with _type := TYPE_ASSET, height := effHeight prev } :: rest) _
  rw [emptyPositionsLoop_cons, emptyPositionsLoop_cons]
  rw [if_neg h1, if_neg h2]
  show emptyPositionsLoop (some (effHeight prev)) rest _ =
    emptyPositionsLoop _ rest _
  rfl

/-- C1: for every `max_height ≥ 1` and every sequence of placed items
(each of kind Asset with its own height, or kind Accessory with
height fixed at `1`), `get_empty_positions` returns exactly the set
difference of the full integer range `[1, max_height]` and the union
of every item's occupied range `[position, position + height - 1]`;
overlapping items contribute their union, not their sum. -/
theorem get_empty_positions_eq_range_sdiff_occupiedUnion
    (mh : Int) (devices : List RackItem)
    (_hmh : 1 ≤ mh) (hval : ∀ it ∈ devices, validType it) :
    get_empty_positions mh devices =
      some (Finset.Icc 1 mh \ occupiedUnion devices) :=
  get_empty_positions_char mh devices hval

theorem get_empty_positions_eq_range_sdiff_occupiedUnion_witness :
    get_empty_positions 4
        [⟨TYPE_ACCESSORY, 2, 0⟩, ⟨TYPE_ASSET, 3, 1⟩] =
      some (Finset.Icc 1 4 \
        occupiedUnion [⟨TYPE_ACCESSORY, 2, 0⟩, ⟨TYPE_ASSET, 3, 1⟩]) :=
  get_empty_positions_eq_range_sdiff_occupiedUnion 4
    [⟨TYPE_ACCESSORY, 2, 0⟩, ⟨TYPE_ASSET, 3, 1⟩] (by decide) (by decide)

/-- C2: for every `max_height ≥ 1` and every sequence of placed items
of kind Asset or Accessory, no position in the returned set lies in
any item's occupied range `[position, position + height - 1]`, and
every returned position lies within `[1, max_height]`. -/
theorem get_empty_positions_never_reports_occupied
    (mh : Int) (devices : List RackItem) (S : Finset Int)
    (_hmh : 1 ≤ mh) (hval : ∀ it ∈ devices, validType it)
    (hS : get_empty_positions mh devices = some S) :
    ∀ p ∈ S, (1 ≤ p ∧ p ≤ mh) ∧
      ∀ it ∈ devices,
        ¬ (it.position ≤ p ∧ p ≤ it.position + effHeight it - 1) := by
  rw [get_empty_positions_char mh devices hval] at hS
  injection hS with hS
  subst hS
  intro p hp
  rw [Finset.mem_sdiff, Finset.mem_Icc] at hp
  obtain ⟨⟨h1, h2⟩, hnot⟩ := hp
  refine ⟨⟨h1, h2⟩, fun it hit hcov => hnot ?_⟩
  rw [mem_occupiedUnion]
  exact ⟨it, hit, Finset.mem_Icc.mpr hcov⟩

theorem get_empty_positions_never_reports_occupied_witness :
    ((1 : Int) ≤ 1 ∧ (1 : Int) ≤ 4) ∧
      ∀ it ∈ ([⟨TYPE_ACCESSORY, 2, 0⟩, ⟨TYPE_ASSET, 3, 1⟩] : List RackItem),
        ¬ (it.position ≤ (1 : Int) ∧
            (1 : Int) ≤ it.position + effHeight it - 1) :=
  get_empty_positions_never_reports_occupied 4
    [⟨TYPE_ACCESSORY, 2, 0⟩, ⟨TYPE_ASSET, 3, 1⟩] ({1, 4} : Finset Int)
    (by decide) (by decide) (by decide) 1 (by decide)

/-- C9: for every `max_height ≥ 1`, `get_empty_positions` applied to
an empty item sequence returns exactly the full set
`{1, ..., max_height}`. -/
theorem get_empty_positions_nil_full_range (mh : Int) (_hmh : 1 ≤ mh) :
    get_empty_positions mh [] = some (Finset.Icc 1 mh) := by
  rw [get_empty_positions_char mh [] (by intro it h; cases h)]
  simp [occupiedUnion]

theorem get_empty_positions_nil_full_range_witness :
    get_empty_positions 3 [] = some (Finset.Icc 1 3) :=
  get_empty_positions_nil_full_range 3 (by decide)

/-- C8: for every `max_height ≥ 1` and every sequence of placed items
of kind Asset or Accessory, the set returned by
`get_empty_positions` is the same for every permutation of the item
sequence. -/
theorem get_empty_positions_perm_invariant
    (mh : Int) (d1 d2 : List RackItem)
    (_hmh : 1 ≤ mh) (hval : ∀ it ∈ d1, validType it) (hperm : d1.Perm d2) :
    get_empty_positions mh d1 = get_empty_positions mh d2 := by
  have hval2 : ∀ it ∈ d2, validType it :=
    fun it h => hval it (hperm.mem_iff.mpr h)
  rw [get_empty_positions_char mh d1 hval,
    get_empty_positions_char mh d2 hval2]
  have hU : occupiedUnion d1 = occupiedUnion d2 := by
    ext x
    rw [mem_occupiedUnion, mem_occupiedUnion]
    constructor
    · rintro ⟨it, hit, hx⟩
      exact ⟨it, hperm.mem_iff.mp hit, hx⟩
    · rintro ⟨it, hit, hx⟩
      exact ⟨it, hperm.mem_iff.mpr hit, hx⟩
  rw [hU]

theorem get_empty_positions_perm_invariant_witness :
    get_empty_positions 4 [⟨TYPE_ACCESSORY, 2, 0⟩, ⟨TYPE_ASSET, 3, 1⟩] =
      get_empty_positions 4 [⟨TYPE_ASSET, 3, 1⟩, ⟨TYPE_ACCESSORY, 2, 0⟩] :=
  get_empty_positions_perm_invariant 4
    [⟨TYPE_ACCESSORY, 2, 0⟩, ⟨TYPE_ASSET, 3, 1⟩]
    [⟨TYPE_ASSET, 3, 1⟩, ⟨TYPE_ACCESSORY, 2, 0⟩]
    (by decide) (by decide)
    (List.Perm.swap (⟨TYPE_ASSET, 3, 1⟩ : RackItem)
      (⟨TYPE_ACCESSORY, 2, 0⟩ : RackItem) [])

/-- C5 counterexample: at `max_height = 0` (and no items) the source
function raises no condition at all: it silently returns the empty
result set, because `set(xrange(1, max_height + 1))` is simply empty.
No `InvalidRackHeight` condition exists anywhere in the source. -/
theorem get_empty_positions_zero_returns_result :
    get_empty_positions 0 [] = some (∅ : Finset Int) := by decide

/-- C5 amended: for every `max_height ≤ 0` and every sequence of
items of kind Asset or Accessory, `get_empty_positions` silently
returns a result set, namely the empty set, rather than failing with
any condition. -/
theorem get_empty_positions_nonpositive_silently_empty
    (mh : Int) (devices : List RackItem)
    (hmh : mh ≤ 0) (hval : ∀ it ∈ devices, validType it) :
    get_empty_positions mh devices = some (∅ : Finset Int) := by
  rw [get_empty_positions_char mh devices hval,
    Finset.Icc_eq_empty (by omega), Finset.empty_sdiff]

theorem get_empty_positions_nonpositive_silently_empty_witness :
    get_empty_positions 0 [⟨TYPE_ASSET, 1, 2⟩] = some (∅ : Finset Int) :=
  get_empty_positions_nonpositive_silently_empty 0 [⟨TYPE_ASSET, 1, 2⟩]
    (by decide) (by decide)

/-! ## Claims about the deprecation evaluator -/

/-- C3: for every non-absent `invoice_date` and every
`support_period > 0`, `is_deprecated` returns `true` if and only if
`invoice_date` plus `support_period` calendar months (calendar-month
rollover semantics with day clamping, e.g. Jan 31 + 1 month =
Feb 28/29) is strictly earlier than `today`; in particular it
returns `false` when `today` equals the deprecation date exactly. -/
theorem is_deprecated_true_iff_deprecation_date_lt_today
    (f : DateField) (m : Int) (t : Date) (hm : 0 < m) :
    (is_deprecated ⟨some m, some f⟩ t).1 = true ↔
      dateLtP (addMonths f.dateOf m) t := by
  have hm0 : m ≠ 0 := by omega
  simp [is_deprecated, hm0]

theorem is_deprecated_true_iff_deprecation_date_lt_today_witness :
    (is_deprecated ⟨some 12, some (.fromDate ⟨2020, 1, 1⟩)⟩
        ⟨2021, 1, 2⟩).1 = true :=
  (is_deprecated_true_iff_deprecation_date_lt_today
    (.fromDate ⟨2020, 1, 1⟩) 12 ⟨2021, 1, 2⟩ (by decide)).mpr (by decide)

/-- C4: for every input where `invoice_date` is absent, or
`support_period` is absent or zero, `is_deprecated` returns `false`
(and, being a total function in this embedding, signals no error),
regardless of the value of `today`. -/
theorem is_deprecated_missing_fields_false (a : AssetRec) (t : Date)
    (h : a.invoice_date = none ∨ a.support_period = none ∨
      a.support_period = some 0) :
    (is_deprecated a t).1 = false := by
  obtain ⟨sp, inv⟩ := a
  cases sp <;> cases inv <;> simp_all [is_deprecated]

theorem is_deprecated_missing_fields_false_witness :
    (is_deprecated ⟨some 12, none⟩ ⟨2021, 6, 15⟩).1 = false :=
  is_deprecated_missing_fields_false ⟨some 12, none⟩ ⟨2021, 6, 15⟩
    (Or.inl rfl)

/-- C6 counterexample: the source reads `today` from the ambient
clock (`datetime.datetime.today()`), not from an explicit parameter:
with the record's two fields held fixed (`invoice_date` 2020-01-01,
`support_period` 12), the boolean flips as the ambient date advances
from 2021-01-01 to 2021-01-02, so the result is not a function of
the explicitly supplied inputs alone. -/
theorem is_deprecated_varies_with_ambient_clock :
    (is_deprecated ⟨some 12, some (.fromDate ⟨2020, 1, 1⟩)⟩
        ⟨2021, 1, 1⟩).1 = false ∧
    (is_deprecated ⟨some 12, some (.fromDate ⟨2020, 1, 1⟩)⟩
        ⟨2021, 1, 2⟩).1 = true := by
  decide

/-- C6 amended: `is_deprecated` reads the current date from the
ambient clock rather than an explicitly supplied parameter; once
that clock reading is fixed, the result is a deterministic function
of `invoice_date`, `support_period` and the clock date: it is `true`
exactly when both fields are present and truthy and the invoice date
plus the support period in calendar months is strictly earlier than
the clock date. -/
theorem is_deprecated_determined_by_fields_and_clock
    (a : AssetRec) (t : Date) :
    (is_deprecated a t).1 = true ↔
      ∃ m f, a.support_period = some m ∧ m ≠ 0 ∧
        a.invoice_date = some f ∧ dateLtP (addMonths f.dateOf m) t := by
  obtain ⟨sp, inv⟩ := a
  cases sp with
  | none => simp [is_deprecated]
  | some m =>
    cases inv with
    | none => simp [is_deprecated]
    | some f =>
      by_cases hm : m = 0
      · subst hm
        simp [is_deprecated]
      · simp [is_deprecated, hm]

/-- C7 counterexample: `is_deprecated` does mutate its input record
when `invoice_date` holds a string: the method body reassigns
`self.invoice_date` to the value parsed by `strptime`, so the record
after the call differs from the record before it. -/
theorem is_deprecated_mutates_invoice_date :
    (is_deprecated ⟨some 12, some (.fromString ⟨2020, 1, 1⟩)⟩
        ⟨2021, 6, 15⟩).2 ≠
      ⟨some 12, some (.fromString ⟨2020, 1, 1⟩)⟩ := by
  decide

/-- C7 amended: `get_empty_positions` reads its inputs and mutates
nothing (the loop only appends to its own local `positions` list, so
the embedding is a pure function of the item list); `is_deprecated`
never changes `support_period`, and leaves the record unchanged
unless `invoice_date` holds a string and both fields are truthy, in
which case `invoice_date` is overwritten with the parsed date value
(the denoted date is preserved). -/
theorem is_deprecated_frame_conditions (a : AssetRec) (t : Date) :
    (is_deprecated a t).2.support_period = a.support_period ∧
    ((¬ ∃ d m, a.invoice_date = some (DateField.fromString d) ∧
        a.support_period = some m ∧ m ≠ 0) →
      (is_deprecated a t).2 = a) ∧
    (∀ d m, a.invoice_date = some (DateField.fromString d) →
      a.support_period = some m → m ≠ 0 →
      (is_deprecated a t).2 =
        { a with invoice_date := some (DateField.fromDate d) }) := by
  obtain ⟨sp, inv⟩ := a
  cases sp with
  | none => simp [is_deprecated]
  | some m =>
    cases inv with
    | none => simp [is_deprecated]
    | some f =>
      by_cases hm : m = 0
      · subst hm
        simp [is_deprecated]
      · cases f with
        | fromString d =>
            refine ⟨by simp [is_deprecated, hm], ?_, ?_⟩
            · intro h
              exact absurd ⟨d, m, rfl, rfl, hm⟩ h
            · intro d' m' hd hm' hm'0
              injection hd with hd
              injection hd with hd
              subst hd
              simp [is_deprecated, hm]
        | fromDate d =>
            refine ⟨by simp [is_deprecated, hm], ?_, ?_⟩
            · intro _
              simp [is_deprecated, hm]
            · intro d' m' hd hm' hm'0
              injection hd with hd
              cases hd

theorem is_deprecated_frame_conditions_witness :
    (is_deprecated ⟨some 12, some (.fromString ⟨2020, 1, 1⟩)⟩
        ⟨2021, 6, 15⟩).2 =
      ⟨some 12, some (.fromDate ⟨2020, 1, 1⟩)⟩ :=
  (is_deprecated_frame_conditions
    ⟨some 12, some (.fromString ⟨2020, 1, 1⟩)⟩ ⟨2021, 6, 15⟩).2.2
    ⟨2020, 1, 1⟩ 12 rfl rfl (by decide)

/-- C10: in `get_empty_positions`, the `height` variable is not
reset between loop iterations.  Three parts: (1) if the first item's
`_type` is neither `'asset'` nor `'accessory'`, the function fails
(`height` is never bound before use, a `NameError`); (2) if a later
item has such a `_type` and follows a well-kinded item, the
preceding item's (effective) height is silently reused for it — the
result is the same as if that item were an asset of the preceding
item's height; (3) only when every item's `_type` is `'asset'` or
`'accessory'` is each item's occupied range computed from its own
height, giving the range-minus-union result. -/
theorem get_empty_positions_height_carryover :
    (∀ (mh : Int) (it : RackItem) (rest : List RackItem),
        it._type ≠ TYPE_ASSET → it._type ≠ TYPE_ACCESSORY →
        get_empty_positions mh (it :: rest) = none) ∧
    (∀ (mh : Int) (pre : List RackItem) (prev other : RackItem)
        (rest : List RackItem),
        validType prev →
        other._type ≠ TYPE_ASSET → other._type ≠ TYPE_ACCESSORY →
        get_empty_positions mh (pre ++ prev :: other :: rest) =
          get_empty_positions mh
            (pre ++ prev ::
              { other with _type := TYPE_ASSET, height := effHeight prev } ::
              rest)) ∧
    (∀ (mh : Int) (devices : List RackItem),
        (∀ it ∈ devices, validType it) →
        get_empty_positions mh devices =
          some (Finset.Icc 1 mh \ occupiedUnion devices)) := by
  refine ⟨?_, ?_, ?_⟩
  · intro mh it rest h1 h2
    unfold get_empty_positions
    rw [emptyPositionsLoop_cons, if_neg h1, if_neg h2]
    rfl
  · intro mh pre prev other rest hprev h1 h2
    unfold get_empty_positions
    rw [emptyPositionsLoop_congr_suffix _ _
      (loop_other_reuses_height prev other rest hprev h1 h2) pre none []]
  · intro mh devices hval
    exact get_empty_positions_char mh devices hval

theorem get_empty_positions_height_carryover_witness :
    get_empty_positions 5 [⟨"empty", 1, 1⟩] = none :=
  get_empty_positions_height_carryover.1 5 ⟨"empty", 1, 1⟩ []
    (by decide) (by decide)
